import Mathlib

/-!
Verification development for the `chal` scripting-language core: the HIR
lowering compiler (`src/hir/mod.rs`, `src/hir/scope.rs`) and the stack-based
virtual machine (`src/vm/mod.rs`, `src/vm/stack.rs`, `src/vm/types.rs`),
plus the unique-identifier generator (`src/util/uuid.rs`).

Modelling notes (the embedding is otherwise a direct translation):
* `f64` is modelled as `ℚ`.  All claims under study are about operand order,
  truncation to machine integers, scope handling and control flow, none of
  which depend on rounding; `powf` is kept as an explicit function parameter
  `fpow` since it has no rational counterpart.  Casting `f64 as u64`/`as u32`
  is Rust's saturating truncation toward zero, modelled by `toU64`/`toU32`.
  Shifts use release-mode masked semantics (shift amount taken mod 64).
* Rust `HashMap`s are modelled as association lists with insert-in-front and
  first-match lookup, which is observationally the same (an insert replaces
  the visible binding; for the label index built by `VirtualMachine::new`
  the last occurrence wins, modelled by `labelTarget` scanning for the last
  marker).
* Rust panics and `todo!()` calls are fatal faults; they are modelled as
  `Fault` (run time) and `CompileErr` (compile time) error values.
* The VM's `run` loop and the compiler's tree walk are totalized with an
  explicit fuel argument; `Fault.outOfFuel` / `CompileErr.outOfFuel` are
  model artifacts that never occur once the fuel exceeds the number of
  executed steps / the depth of the expression tree.
* `Uuid::new` (a global wrapping 16-bit counter added to the nanoseconds
  since thread start) is modelled faithfully by `uuidAt` below for the claim
  about the generator itself.  Inside the compiler the minted tokens are
  modelled by a monotone counter threaded through the state: the compiler's
  behaviour depends only on the freshness of the tokens, not their values.
* `Value::String` is an aliasable `Rc<RefCell<String>>` buffer in Rust; its
  `PartialEq` compares buffer contents, so it is modelled by the contents.
  `Value::BuiltIn` carries an opaque host-function handle, modelled by the
  name it was imported under; its equality is constantly `false` as in Rust.
-/

set_option maxRecDepth 100000

namespace Chal

/-! ## Number helpers: saturating truncation of a float to machine integers -/

/-- Rust `f64 as u64`: truncation toward zero, saturating at the ends
(`src/vm/mod.rs`, macro `run_arith_op_fn`). -/
def toU64 (q : ℚ) : ℕ :=
  if q < 0 then 0 else min (2 ^ 64 - 1) (q.num.toNat / q.den)

/-- Rust `f64 as u32` (used by the `BNot` instruction). -/
def toU32 (q : ℚ) : ℕ :=
  if q < 0 then 0 else min (2 ^ 32 - 1) (q.num.toNat / q.den)

/-- Truncation of a rational toward zero, as Rust float-to-int casts do. -/
def qtrunc (q : ℚ) : ℤ :=
  if 0 ≤ q.num then ((q.num.toNat / q.den : ℕ) : ℤ)
  else -(((-q.num).toNat / q.den : ℕ) : ℤ)

/-- Rust `f64 %`: remainder with the sign of the dividend. -/
def rmod (a b : ℚ) : ℚ := a - b * ((qtrunc (a / b) : ℤ) : ℚ)

/-! ## Runtime values (`src/vm/types.rs`) -/

/-- `Value` from `src/vm/types.rs`. -/
inductive Value where
  | null
  | addr (n : ℕ)
  | bool (b : Bool)
  | number (q : ℚ)
  | str (s : String)
  | builtin (name : String)
deriving Repr, DecidableEq, Inhabited

/-- `impl PartialEq for Value`: same-variant comparison; `BuiltIn` is never
equal to anything. -/
def valueEq : Value → Value → Bool
  | .null, .null => true
  | .addr a, .addr b => a == b
  | .bool a, .bool b => a == b
  | .number a, .number b => a == b
  | .str a, .str b => a == b
  | .builtin _, _ => false
  | _, _ => false

/-- Whether a value is a `Number`. -/
def Value.isNumber : Value → Bool
  | .number _ => true
  | _ => false

/-- `impl PartialOrd for Value`, specialised to `<`: ordering is defined only
between two `Number`s; every other pairing is unordered, hence `false`. -/
def valueLt : Value → Value → Bool
  | .number a, .number b => decide (a < b)
  | _, _ => false

/-- `Value` comparison `>` via the same `PartialOrd` implementation. -/
def valueGt : Value → Value → Bool
  | .number a, .number b => decide (b < a)
  | _, _ => false

/-- `Value` comparison `<=` via `PartialOrd` (`Less` or `Equal`). -/
def valueLe : Value → Value → Bool
  | .number a, .number b => decide (a ≤ b)
  | _, _ => false

/-- `Value` comparison `>=` via `PartialOrd` (`Greater` or `Equal`). -/
def valueGe : Value → Value → Bool
  | .number a, .number b => decide (b ≤ a)
  | _, _ => false

/-! ## Instructions (`src/ir/instr.rs`) -/

/-- `Instruction` from `src/ir/instr.rs`; labels and locals are the minted
unique tokens, modelled as naturals. -/
inductive Instr where
  | nop
  | ldNull
  | ldTrue
  | ldFalse
  | ldStr (s : String)
  | ldF64 (q : ℚ)
  | ldLoc (l : ℕ)
  | ldAddr (n : ℕ)
  | ldImport (s : String)
  | stLoc (l : ℕ)
  | label (l : ℕ)
  | jmp (l : ℕ)
  | jmpEq (l : ℕ)
  | jmpNEq (l : ℕ)
  | jmpLt (l : ℕ)
  | jmpGt (l : ℕ)
  | jmpLtEq (l : ℕ)
  | jmpGtEq (l : ℕ)
  | call (l : ℕ)
  | callF (s : String)
  | ret
  | add
  | sub
  | mul
  | div
  | mod
  | pow
  | eq
  | neq
  | lt
  | gt
  | ltEq
  | gtEq
  | bor
  | bnot
  | band
  | lshift
  | rshift
deriving Repr, DecidableEq

/-! ## Faults: Rust panics / `todo!()`s in the VM -/

/-- Fatal runtime faults.  Each constructor corresponds to a `todo!()` or
`panic!` site in `src/vm`. -/
inductive Fault where
  | stackUnderflow
  | stackOverflow
  | typeMismatch
  | encounteredLabel
  | unknownBuiltin (s : String)
  | unknownLabel (l : ℕ)
  | undefinedLocal (l : ℕ)
  | retNotAddr
  | pcOutOfRange
  | outOfFuel
deriving Repr, DecidableEq

/-! ## The evaluation stack (`src/vm/stack.rs`) -/

/-- `Stack`: fixed array of values plus a position cursor. -/
structure Stack where
  pos : ℕ
  items : List Value
deriving Repr

/-- `Stack::new(size)`. -/
def Stack.new (size : ℕ) : Stack := ⟨0, List.replicate size .null⟩

/-- `Stack::pop`: underflow at position zero is fatal; the vacated slot is
cleared back to `Null`. -/
def Stack.pop (s : Stack) : Except Fault (Value × Stack) :=
  if s.pos = 0 then .error .stackUnderflow
  else .ok (s.items.getD (s.pos - 1) .null,
            ⟨s.pos - 1, s.items.set (s.pos - 1) .null⟩)

/-- `Stack::push`: faults when `pos >= items.len() - 1`, so the very top slot
is out of reach of ordinary pushes. -/
def Stack.push (s : Stack) (v : Value) : Except Fault Stack :=
  if s.items.length - 1 ≤ s.pos then .error .stackOverflow
  else .ok ⟨s.pos + 1, s.items.set s.pos v⟩

/-- `Stack::push_top`: writes the reserved last slot, ignoring the cursor;
it never faults. -/
def Stack.pushTop (s : Stack) (v : Value) : Stack :=
  ⟨s.pos, s.items.set (s.items.length - 1) v⟩

/-- `Stack::pop_top`: reads (without clearing) the reserved last slot. -/
def Stack.popTop (s : Stack) : Value :=
  s.items.getD (s.items.length - 1) .null

/-! ## The virtual machine (`src/vm/mod.rs`) -/

/-- `Step` from `src/vm/types.rs`. -/
inductive Step where
  | next
  | jmp (l : ℕ)
  | jmpAddr (n : ℕ)
deriving Repr, DecidableEq

/-- The VM state.  `builtins` is the host-function registry; each builtin
acts directly on the evaluation stack, as in Rust. -/
structure VM where
  pc : ℕ
  stack : Stack
  script : List Instr
  locals : List (ℕ × Value)
  builtins : List (String × (Stack → Except Fault Stack))

/-- `VirtualMachine::new`: program counter 0, a 255-slot stack, no locals,
no builtins. -/
def VM.new (script : List Instr) : VM :=
  ⟨0, Stack.new 255, script, [], []⟩

/-- The label→offset index built by `VirtualMachine::new`: the offset of the
instruction immediately after the marker; for a duplicated label the last
marker wins (`HashMap` collect semantics). -/
def labelTarget (script : List Instr) (l : ℕ) : Option ℕ :=
  (script.enum.filterMap fun p =>
    match p.2 with
    | .label l2 => if l2 = l then some (p.1 + 1) else none
    | _ => none).getLast?

/-- Local store lookup (`self.locals[&local]`). -/
def lookupLocal (m : List (ℕ × Value)) (l : ℕ) : Option Value :=
  (m.find? fun p => p.1 == l).map fun p => p.2

/-- Local store insert (`self.locals.insert(local, v)`). -/
def insertLocal (m : List (ℕ × Value)) (l : ℕ) (v : Value) :
    List (ℕ × Value) :=
  (l, v) :: m

/-- Builtin registry lookup. -/
def lookupBuiltin (m : List (String × (Stack → Except Fault Stack)))
    (s : String) : Option (Stack → Except Fault Stack) :=
  (m.find? fun p => p.1 == s).map fun p => p.2

/-- The `run_arith_op` macro: pop twice, require two `Number`s, push the
combination; first pop is the left operand. -/
def arithSem (f : ℚ → ℚ → ℚ) (st : Stack) : Except Fault (Stack × Step) :=
  match st.pop with
  | .error e => .error e
  | .ok (a, st1) =>
    match st1.pop with
    | .error e => .error e
    | .ok (b, st2) =>
      match a, b with
      | .number x, .number y =>
        match st2.push (.number (f x y)) with
        | .error e => .error e
        | .ok st3 => .ok (st3, .next)
      | _, _ => .error .typeMismatch

/-- The `run_log_op` macro: pop twice, push the boolean combination; first
pop is the left operand. -/
def logSem (f : Value → Value → Bool) (st : Stack) :
    Except Fault (Stack × Step) :=
  match st.pop with
  | .error e => .error e
  | .ok (a, st1) =>
    match st1.pop with
    | .error e => .error e
    | .ok (b, st2) =>
      match st2.push (.bool (f a b)) with
      | .error e => .error e
      | .ok st3 => .ok (st3, .next)

/-- The `run_arith_op_fn` macro: pop two `Number`s, truncate both to `u64`,
combine, push the result converted back to a float. -/
def bitSem (f : ℕ → ℕ → ℕ) (st : Stack) : Except Fault (Stack × Step) :=
  match st.pop with
  | .error e => .error e
  | .ok (a, st1) =>
    match st1.pop with
    | .error e => .error e
    | .ok (b, st2) =>
      match a, b with
      | .number x, .number y =>
        match st2.push (.number ((f (toU64 x) (toU64 y) : ℕ) : ℚ)) with
        | .error e => .error e
        | .ok st3 => .ok (st3, .next)
      | _, _ => .error .typeMismatch

/-- The `jmp_if` macro: pop twice, jump when the condition holds of
(first pop, second pop). -/
def jmpIfSem (dest : ℕ) (f : Value → Value → Bool) (st : Stack) :
    Except Fault (Stack × Step) :=
  match st.pop with
  | .error e => .error e
  | .ok (a, st1) =>
    match st1.pop with
    | .error e => .error e
    | .ok (b, st2) =>
      if f a b then .ok (st2, .jmp dest) else .ok (st2, .next)

/-- Push a plain value (`run_ld`). -/
def ldSem (v : Value) (st : Stack) : Except Fault (Stack × Step) :=
  match st.push v with
  | .error e => .error e
  | .ok st2 => .ok (st2, .next)

/-- Lift a stack transformation back into the whole VM state. -/
def withStack (vm : VM) (r : Except Fault (Stack × Step)) :
    Except Fault (VM × Step) :=
  match r with
  | .error e => .error e
  | .ok (st, s) => .ok ({vm with stack := st}, s)

/-- `VirtualMachine::run_next`: execute the instruction at the program
counter.  `fpow` stands in for `f64::powf`. -/
def runNext (fpow : ℚ → ℚ → ℚ) (vm : VM) : Except Fault (VM × Step) :=
  match vm.script.get? vm.pc with
  | none => .error .pcOutOfRange
  | some i =>
    match i with
    | .nop => .ok (vm, .next)
    | .ldNull => withStack vm (ldSem .null vm.stack)
    | .ldTrue => withStack vm (ldSem (.bool true) vm.stack)
    | .ldFalse => withStack vm (ldSem (.bool false) vm.stack)
    | .ldF64 q => withStack vm (ldSem (.number q) vm.stack)
    | .ldStr s => withStack vm (ldSem (.str s) vm.stack)
    | .ldAddr n => withStack vm (ldSem (.addr n) vm.stack)
    | .ldImport s =>
      match lookupBuiltin vm.builtins s with
      | some _ => withStack vm (ldSem (.builtin s) vm.stack)
      | none => .error (.unknownBuiltin s)
    | .stLoc l =>
      match vm.stack.pop with
      | .error e => .error e
      | .ok (v, st) =>
        .ok ({vm with stack := st, locals := insertLocal vm.locals l v},
             .next)
    | .ldLoc l =>
      match lookupLocal vm.locals l with
      | none => .error (.undefinedLocal l)
      | some v => withStack vm (ldSem v vm.stack)
    | .jmp l => .ok (vm, .jmp l)
    | .jmpEq l => withStack vm (jmpIfSem l valueEq vm.stack)
    | .jmpNEq l => withStack vm (jmpIfSem l (fun a b => !valueEq a b) vm.stack)
    | .jmpLt l => withStack vm (jmpIfSem l valueLt vm.stack)
    | .jmpLtEq l => withStack vm (jmpIfSem l valueLe vm.stack)
    | .jmpGt l => withStack vm (jmpIfSem l valueGt vm.stack)
    | .jmpGtEq l => withStack vm (jmpIfSem l valueGe vm.stack)
    | .call l =>
      .ok ({vm with stack := vm.stack.pushTop (.addr (vm.pc + 1))}, .jmp l)
    | .callF s =>
      match lookupBuiltin vm.builtins s with
      | some f =>
        match f vm.stack with
        | .error e => .error e
        | .ok st => .ok ({vm with stack := st}, .next)
      | none => .error (.unknownBuiltin s)
    | .ret =>
      match vm.stack.popTop with
      | .addr a => .ok (vm, .jmpAddr a)
      | _ => .error .retNotAddr
    | .add => withStack vm (arithSem (fun a b => a + b) vm.stack)
    | .sub => withStack vm (arithSem (fun a b => a - b) vm.stack)
    | .mul => withStack vm (arithSem (fun a b => a * b) vm.stack)
    | .div => withStack vm (arithSem (fun a b => a / b) vm.stack)
    | .mod => withStack vm (arithSem rmod vm.stack)
    | .pow => withStack vm (arithSem fpow vm.stack)
    | .eq => withStack vm (logSem valueEq vm.stack)
    | .neq => withStack vm (logSem (fun a b => !valueEq a b) vm.stack)
    | .lt => withStack vm (logSem valueLt vm.stack)
    | .gt => withStack vm (logSem valueGt vm.stack)
    | .ltEq => withStack vm (logSem valueLe vm.stack)
    | .gtEq => withStack vm (logSem valueGe vm.stack)
    | .bnot =>
      match vm.stack.pop with
      | .error e => .error e
      | .ok (v, st) =>
        match v with
        | .bool b => withStack vm (ldSem (.bool (!b)) st)
        | .number q =>
          withStack vm (ldSem (.number ((2 ^ 32 - 1 - toU32 q : ℕ) : ℚ)) st)
        | _ => .error .typeMismatch
    | .bor => withStack vm (bitSem (fun a b => a ||| b) vm.stack)
    | .band => withStack vm (bitSem (fun a b => a &&& b) vm.stack)
    | .lshift =>
      withStack vm (bitSem (fun a b => (a <<< (b % 64)) % 2 ^ 64) vm.stack)
    | .rshift => withStack vm (bitSem (fun a b => a >>> (b % 64)) vm.stack)
    | .label _ => .error .encounteredLabel

/-- Apply a `Step` outcome to the program counter (`VirtualMachine::run`'s
match): advance, resolve a label through the index, or absolute jump. -/
def applyStep (vm : VM) (s : Step) : Except Fault VM :=
  match s with
  | .next => .ok {vm with pc := vm.pc + 1}
  | .jmp l =>
    match labelTarget vm.script l with
    | some o => .ok {vm with pc := o}
    | none => .error (.unknownLabel l)
  | .jmpAddr a => .ok {vm with pc := a}

/-- `VirtualMachine::run`: loop until the program counter leaves the script.
Totalized with fuel; any fuel at least the number of executed steps gives
the loop's result. -/
def run (fpow : ℚ → ℚ → ℚ) : ℕ → VM → Except Fault VM
  | 0, vm => if vm.script.length ≤ vm.pc then .ok vm else .error .outOfFuel
  | fuel + 1, vm =>
    if vm.script.length ≤ vm.pc then .ok vm
    else
      match runNext fpow vm with
      | .error e => .error e
      | .ok (vm2, s) =>
        match applyStep vm2 s with
        | .error e => .error e
        | .ok vm3 => run fpow fuel vm3

/-- The value on top of the evaluation stack. -/
def topValue (vm : VM) : Value := vm.stack.items.getD (vm.stack.pos - 1) .null

/-- Run to completion and read the top of the stack. -/
def runTop (fpow : ℚ → ℚ → ℚ) (fuel : ℕ) (vm : VM) : Except Fault Value :=
  match run fpow fuel vm with
  | .error e => .error e
  | .ok vm2 => .ok (topValue vm2)

/-! ## The syntax tree (`src/ast/expr.rs`) -/

/-- `UnaryOperator`. -/
inductive UnOp where
  | neg
  | bnot
  | addInc
  | subInc
deriving Repr, DecidableEq

/-- `BinaryOperator`. -/
inductive BinOp where
  | add
  | sub
  | mul
  | div
  | mod
  | pow
  | bor
  | band
  | lshift
  | rshift
  | eq
  | neq
  | lt
  | ltEq
  | gt
  | gtEq
deriving Repr, DecidableEq

/-- `Expr` from `src/ast/expr.rs` (boxes flattened). -/
inductive Expr where
  | noop
  | strLit (s : String)
  | numLit (q : ℚ)
  | ifE (cond body : Expr) (fallthrough : Option Expr)
  | callE (name : String) (args : Option Expr)
  | assign (ident : String) (e : Expr)
  | define (ident : String) (e : Expr)
  | funE (name : String) (params : List String) (body : Expr)
  | unary (op : UnOp) (e : Expr)
  | binary (op : BinOp) (lhs rhs : Expr)
  | refVar (name : String)
  | refParam (name : String)
  | compound (es : List Expr)
deriving Repr

/-! ## Compile-time scopes (`src/hir/scope.rs`) -/

/-- `Scope`: two name→local maps plus an optional parent (the unused
`children` field is omitted). -/
structure Scope where
  vars : List (String × ℕ)
  params : List (String × ℕ)
  parent : Option ℕ
deriving Repr

/-- `Scope::new`: empty maps, no parent. -/
def Scope.new : Scope := ⟨[], [], none⟩

/-- Compile-time faults.  Each constructor corresponds to a `todo!()` or
`panic!` site in `src/hir/mod.rs`; `outOfFuel` is the totalization
artifact. -/
inductive CompileErr where
  | duplicateVar (name : String)
  | undefinedVar (name : String)
  | undefinedParam (name : String)
  | unsupportedUnary
  | fnNotScanned (name : String)
  | scopeMissing
  | outOfFuel
deriving Repr, DecidableEq

/-! ## The lowering compiler (`src/hir/mod.rs`) -/

/-- The `Hir` compiler state.  `next` is the fresh-token supply standing in
for `Uuid::new` (see the header note): labels and locals are minted from the
same sequence, as in the source. -/
structure Hir where
  scope : ℕ
  scopes : List Scope
  functions : List (String × ℕ)
  instructions : List Instr
  next : ℕ
deriving Repr

/-- Mint a fresh token (`Local::default()` / `Label::default()`). -/
def Hir.mint (h : Hir) : ℕ × Hir := (h.next, {h with next := h.next + 1})

/-- `Hir::push`: append one instruction. -/
def Hir.push (h : Hir) (i : Instr) : Hir :=
  {h with instructions := h.instructions ++ [i]}

/-- `Hir::push_scope`: appends a fresh scope to the scope arena.  Note,
exactly as in the source: the current-scope pointer is NOT moved to the new
scope and the new scope's parent is NOT set — the returned id is ignored by
every caller. -/
def Hir.pushScope (h : Hir) : Hir :=
  {h with scopes := h.scopes ++ [Scope.new]}

/-- `Hir::pop_scope`: move to the current scope's parent when it has one. -/
def Hir.popScope (h : Hir) : Hir :=
  {h with scope := ((h.scopes.get? h.scope).bind Scope.parent).getD h.scope}

/-- `Hir::push_var`: mint a local and bind it in the current scope's `vars`;
a name already bound in this very scope is a fatal fault. -/
def Hir.pushVar (h : Hir) (name : String) : Except CompileErr (ℕ × Hir) :=
  match h.scopes.get? h.scope with
  | none => .error .scopeMissing
  | some sc =>
    match h.mint with
    | (l, h2) =>
      if sc.vars.any fun p => p.1 == name then .error (.duplicateVar name)
      else .ok (l, {h2 with
        scopes := h2.scopes.set h2.scope {sc with vars := (name, l) :: sc.vars}})

/-- `Hir::push_param`: as `push_var` but in the parameter namespace. -/
def Hir.pushParam (h : Hir) (name : String) : Except CompileErr (ℕ × Hir) :=
  match h.scopes.get? h.scope with
  | none => .error .scopeMissing
  | some sc =>
    match h.mint with
    | (l, h2) =>
      if sc.params.any fun p => p.1 == name then .error (.duplicateVar name)
      else .ok (l, {h2 with
        scopes :=
          h2.scopes.set h2.scope {sc with params := (name, l) :: sc.params}})

/-- Walk the scope chain from a given scope toward the root, looking `name`
up through `proj` (the `loop` in `get_var_id`/`get_param_id`); the fuel
bounds the walk (the chain cannot cycle in any reachable state). -/
def scopeLookup (name : String) (proj : Scope → List (String × ℕ))
    (scopes : List Scope) : ℕ → ℕ → Option ℕ
  | 0, _ => none
  | fuel + 1, id =>
    match scopes.get? id with
    | none => none
    | some sc =>
      match (proj sc).find? fun p => p.1 == name with
      | some p => some p.2
      | none =>
        match sc.parent with
        | some par => scopeLookup name proj scopes fuel par
        | none => none

/-- `Hir::get_var_id`. -/
def Hir.getVarId (h : Hir) (name : String) : Option ℕ :=
  scopeLookup name Scope.vars h.scopes (h.scopes.length + 1) h.scope

/-- `Hir::get_param_id`. -/
def Hir.getParamId (h : Hir) (name : String) : Option ℕ :=
  scopeLookup name Scope.params h.scopes (h.scopes.length + 1) h.scope

/-- The function pre-scan (`src/hir/functions.rs`, `get_fns`): collect a
label for every function definition, later definitions overwriting earlier
ones of the same name; minting draws from the same token supply as the
lowering pass.  The generic visitor's traversal (`src/gen/visit.rs`) is
followed; its `match` omits an arm for `Expr::Define`, which is completed
here in the evident way (recurse into the initializer, like `Assign`). -/
def getFnsF : ℕ → List (String × ℕ) × ℕ → Expr →
    Option (List (String × ℕ) × ℕ)
  | 0 => fun _ _ => none
  | fuel + 1 => fun st e =>
    match e with
    | .noop => some st
    | .strLit _ => some st
    | .numLit _ => some st
    | .refVar _ => some st
    | .refParam _ => some st
    | .ifE c b ft =>
      match getFnsF fuel st c with
      | none => none
      | some st1 =>
        match getFnsF fuel st1 b with
        | none => none
        | some st2 =>
          match ft with
          | some f => getFnsF fuel st2 f
          | none => some st2
    | .callE _ args =>
      match args with
      | some a => getFnsF fuel st a
      | none => some st
    | .assign _ e2 => getFnsF fuel st e2
    | .define _ e2 => getFnsF fuel st e2
    | .unary _ e2 => getFnsF fuel st e2
    | .binary _ l r =>
      match getFnsF fuel st l with
      | none => none
      | some st1 => getFnsF fuel st1 r
    | .funE name _ body =>
      match st with
      | (m, c) => getFnsF fuel ((name, c) :: m, c + 1) body
    | .compound es =>
      es.foldlM (fun s e2 => getFnsF fuel s e2) st

/-- Fold a visitor over a list of children (the `Expr::Compound` arm of the
generic visitor). -/
def visitFold (f : Hir → Expr → Except CompileErr Hir) :
    Hir → List Expr → Except CompileErr Hir
  | h, [] => .ok h
  | h, e :: es =>
    match f h e with
    | .error er => .error er
    | .ok h2 => visitFold f h2 es

/-- The parameter-binding loop at function entry (`visit_function`): for each
parameter, mint a fresh param local and immediately emit `LdLoc` for it —
with no store of any incoming argument in between. -/
def paramsFold : Hir → List String → Except CompileErr Hir
  | h, [] => .ok h
  | h, p :: ps =>
    match h.pushParam p with
    | .error er => .error er
    | .ok (l, h2) => paramsFold (h2.push (.ldLoc l)) ps

/-- The instruction selected for each binary operator (the `match` in
`visit_binary`). -/
def binInstr : BinOp → Instr
  | .add => .add
  | .sub => .sub
  | .mul => .mul
  | .div => .div
  | .mod => .mod
  | .pow => .pow
  | .bor => .bor
  | .band => .band
  | .lshift => .lshift
  | .rshift => .rshift
  | .eq => .eq
  | .neq => .neq
  | .lt => .lt
  | .ltEq => .ltEq
  | .gt => .gt
  | .gtEq => .gtEq

/-- The condition phase of `visit_if`: a syntactic `Eq` or `Lt` binary
comparison is lowered as right operand, left operand, then a direct
comparison-jump to the body label; any other shape is lowered to a value
followed by `LdTrue` and an equality-jump. -/
def condPhase (f : Hir → Expr → Except CompileErr Hir) (h : Hir)
    (bodyL : ℕ) : Expr → Except CompileErr Hir
  | .binary .eq l r =>
    match f h r with
    | .error er => .error er
    | .ok hr =>
      match f hr l with
      | .error er => .error er
      | .ok hl => .ok (hl.push (.jmpEq bodyL))
  | .binary .lt l r =>
    match f h r with
    | .error er => .error er
    | .ok hr =>
      match f hr l with
      | .error er => .error er
      | .ok hl => .ok (hl.push (.jmpLt bodyL))
  | c =>
    match f h c with
    | .error er => .error er
    | .ok hc => .ok ((hc.push .ldTrue).push (.jmpEq bodyL))

/-- `impl Visitor for Hir` (`src/hir/mod.rs`): lower one node, threading the
compiler state.  Structure follows the source method by method; the
recursion is totalized on the depth fuel. -/
def hirVisitF : ℕ → Hir → Expr → Except CompileErr Hir
  | 0 => fun _ _ => .error .outOfFuel
  | fuel + 1 => fun h e =>
    match e with
    | .noop => .ok h
    | .strLit s => .ok (h.push (.ldStr s))
    | .numLit q => .ok (h.push (.ldF64 q))
    | .refVar n =>
      match h.getVarId n with
      | some l => .ok (h.push (.ldLoc l))
      | none => .error (.undefinedVar n)
    | .refParam n =>
      match h.getParamId n with
      | some l => .ok (h.push (.ldLoc l))
      | none => .error (.undefinedParam n)
    | .assign ident e2 =>
      match h.getVarId ident with
      | none => .error (.undefinedVar ident)
      | some l =>
        match hirVisitF fuel h e2 with
        | .error er => .error er
        | .ok h2 => .ok (h2.push (.stLoc l))
    | .define ident e2 =>
      match h.pushVar ident with
      | .error er => .error er
      | .ok (l, h2) =>
        match hirVisitF fuel h2 e2 with
        | .error er => .error er
        | .ok h3 => .ok (h3.push (.stLoc l))
    | .unary op e2 =>
      match op with
      | .neg =>
        match hirVisitF fuel h e2 with
        | .error er => .error er
        | .ok h2 => .ok ((h2.push (.ldF64 (-1))).push .mul)
      | .bnot =>
        match hirVisitF fuel h e2 with
        | .error er => .error er
        | .ok h2 => .ok (h2.push .bnot)
      | _ => .error .unsupportedUnary
    | .binary op l r =>
      match hirVisitF fuel h r with
      | .error er => .error er
      | .ok h2 =>
        match hirVisitF fuel h2 l with
        | .error er => .error er
        | .ok h3 => .ok (h3.push (binInstr op))
    | .callE name _ =>
      match h.functions.find? fun p => p.1 == name with
      | some p => .ok (h.push (.call p.2))
      | none => .ok (h.push (.callF name))
    | .ifE cond body ft =>
      match h.mint with
      | (endL, h1) =>
        match h1.mint with
        | (bodyL, h2) =>
          match condPhase (hirVisitF fuel) h2 bodyL cond with
          | .error er => .error er
          | .ok h3 =>
            match
              ((match ft with
                | some f =>
                  match hirVisitF fuel h3.pushScope f with
                  | .error er => .error er
                  | .ok h4 => .ok ((h4.popScope).push (.jmp endL))
                | none => .ok h3) : Except CompileErr Hir) with
            | .error er => .error er
            | .ok h5 =>
              match hirVisitF fuel ((h5.push (.label bodyL)).pushScope)
                  body with
              | .error er => .error er
              | .ok h6 => .ok ((h6.popScope).push (.label endL))
    | .funE name params body =>
      match h.pushScope.mint with
      | (endL, h1) =>
        match h1.functions.find? fun p => p.1 == name with
        | none => .error (.fnNotScanned name)
        | some p =>
          match paramsFold ((h1.push (.jmp endL)).push (.label p.2))
              params with
          | .error er => .error er
          | .ok h2 =>
            match hirVisitF fuel h2 body with
            | .error er => .error er
            | .ok h3 => .ok (((h3.push .ret).push (.label endL)).popScope)
    | .compound es => visitFold (hirVisitF fuel) h es

/-- `hir::compile`: pre-scan for function labels, then lower from a single
root scope; the result is the flat instruction list. -/
def compileF (fuel : ℕ) (e : Expr) : Except CompileErr (List Instr) :=
  match getFnsF fuel ([], 0) e with
  | none => .error .outOfFuel
  | some (fns, c) =>
    match hirVisitF fuel ⟨0, [Scope.new], fns, [], c⟩ e with
    | .error er => .error er
    | .ok h => .ok h.instructions

/-! ## The unique-identifier generator (`src/util/uuid.rs`) -/

/-- `Uuid::new` as a function of the call index `i`: the value of the global
wrapping 16-bit counter at call `i` is `i % 2^16` (`fetch_add` from 0), and
`clock i` is the nanoseconds elapsed since thread start observed by call
`i`; the two are added with `u128` wrap-around. -/
def uuidAt (clock : ℕ → ℕ) (i : ℕ) : ℕ :=
  (clock i + i % 65536) % 2 ^ 128

/-! ## List helper lemmas -/

theorem listGetDSetSelf {α : Type} (l : List α) (i : ℕ) (v d : α)
    (h : i < l.length) : (l.set i v).getD i d = v := by
  induction l generalizing i with
  | nil => simp at h
  | cons x xs ih =>
    cases i with
    | zero => rfl
    | succ n =>
      simp only [List.set, List.getD_cons_succ]
      exact ih n (by simpa using h)

theorem listGetDSetNe {α : Type} (l : List α) (i j : ℕ) (v d : α)
    (h : i ≠ j) : (l.set i v).getD j d = l.getD j d := by
  induction l generalizing i j with
  | nil => rfl
  | cons x xs ih =>
    cases i with
    | zero =>
      cases j with
      | zero => exact absurd rfl h
      | succ m => rfl
    | succ n =>
      cases j with
      | zero => rfl
      | succ m =>
        simp only [List.set, List.getD_cons_succ]
        exact ih n m (by omega)

/-! ## Claim C1 -/

/-- The runtime meaning of each binary operator applied as
`left ⊙ right`, read off the corresponding instruction's semantics in
`run_next`. -/
def opSem (fpow : ℚ → ℚ → ℚ) : BinOp → ℚ → ℚ → Value
  | .add, a, b => .number (a + b)
  | .sub, a, b => .number (a - b)
  | .mul, a, b => .number (a * b)
  | .div, a, b => .number (a / b)
  | .mod, a, b => .number (rmod a b)
  | .pow, a, b => .number (fpow a b)
  | .bor, a, b => .number ((toU64 a ||| toU64 b : ℕ) : ℚ)
  | .band, a, b => .number ((toU64 a &&& toU64 b : ℕ) : ℚ)
  | .lshift, a, b => .number (((toU64 a <<< (toU64 b % 64)) % 2 ^ 64 : ℕ) : ℚ)
  | .rshift, a, b => .number ((toU64 a >>> (toU64 b % 64) : ℕ) : ℚ)
  | .eq, a, b => .bool (valueEq (.number a) (.number b))
  | .neq, a, b => .bool (!valueEq (.number a) (.number b))
  | .lt, a, b => .bool (valueLt (.number a) (.number b))
  | .ltEq, a, b => .bool (valueLe (.number a) (.number b))
  | .gt, a, b => .bool (valueGt (.number a) (.number b))
  | .gtEq, a, b => .bool (valueGe (.number a) (.number b))

/-- Claim C1: for every binary operator and number literals `a`, `b`,
compiling `(op a b)` emits the right operand first, then the left operand,
then the operator instruction; running the compiled program leaves
`a ⊙ b` (left operand combined with right operand, in that order) on top of
the evaluation stack — in particular `(- a b)` leaves `a - b` and `(/ a b)`
leaves `a / b`. -/
theorem c1_binary_operand_order (fpow : ℚ → ℚ → ℚ) (op : BinOp) (a b : ℚ) :
    compileF 5 (.binary op (.numLit a) (.numLit b)) =
      .ok [.ldF64 b, .ldF64 a, binInstr op]
    ∧ runTop fpow 4 (VM.new [.ldF64 b, .ldF64 a, binInstr op]) =
      .ok (opSem fpow op a b)
    ∧ opSem fpow .sub a b = .number (a - b)
    ∧ opSem fpow .div a b = .number (a / b) := by
  refine ⟨?_, ?_, rfl, rfl⟩ <;> cases op <;> rfl

/-! ## Claim C2 -/

/-- The program `(var x 1) (if 1 (var x 2)) $x`: an outer variable `x` and a
same-named definition inside the `if` body. -/
def exC2 : Expr :=
  .compound [.define "x" (.numLit 1),
             .ifE (.numLit 1) (.define "x" (.numLit 2)) none,
             .refVar "x"]

/-- Claim C2 (refuting the claimed behaviour): lowering a program that
defines `x` in an enclosing scope and again inside an `if` body does not
succeed — it aborts with the duplicate-variable fault, because `push_scope`
neither makes the fresh scope current nor records a parent, so the
branch-local definition lands in the enclosing scope. -/
theorem c2_branch_shadowing_faults :
    compileF 10 exC2 = .error (.duplicateVar "x") := by rfl

/-! ## Claim C3 -/

/-- `(var a 1) (if (equal $a 1) "one" "other")`: a compiled `if` whose taken
branch runs into the end-label marker. -/
def exScenarioIf : Expr :=
  .compound [.define "a" (.numLit 1),
             .ifE (.binary .eq (.refVar "a") (.numLit 1))
               (.strLit "one") (some (.strLit "other"))]

/-- The instruction sequence `exScenarioIf` lowers to. -/
def progScenarioIf : List Instr :=
  [.ldF64 1, .stLoc 0, .ldF64 1, .ldLoc 0, .jmpEq 2,
   .ldStr "other", .jmp 1, .label 2, .ldStr "one", .label 1]

/-- Claim C3 (refuting the claimed behaviour): executing a label-marker
instruction is not a zero-effect step — `run_next` panics
(`panic!("Encountered label")`).  In particular the compiled `if` of
`exScenarioIf`, whose taken branch flows into the end-label marker, faults
there instead of continuing. -/
theorem c3_label_marker_faults (fpow : ℚ → ℚ → ℚ) :
    runNext fpow (VM.new [.label 0]) = .error .encounteredLabel
    ∧ compileF 10 exScenarioIf = .ok progScenarioIf
    ∧ run fpow 20 (VM.new progScenarioIf) = .error .encounteredLabel :=
  ⟨rfl, rfl, rfl⟩

/-! ## Claim C6 -/

/-- The float literal `5.7` as a rational (explicit numerator/denominator so
that the value computes definitionally). -/
def q5p7 : ℚ := ⟨57, 10, by norm_num, by norm_num⟩

/-- The float literal `2.3` as a rational. -/
def q2p3 : ℚ := ⟨23, 10, by norm_num, by norm_num⟩

/-- Claim C6: each binary bitwise/shift instruction truncates its two
`Number` operands to unsigned 64-bit integers, performs the integer
operation, and pushes the result back as a float; in particular
`(| 5.7 2.3)` compiles, runs without a type fault, and leaves `Number 7`. -/
theorem c6_bitwise_truncation (fpow : ℚ → ℚ → ℚ) (x y : ℚ) :
    runTop fpow 4 (VM.new [.ldF64 y, .ldF64 x, .bor]) =
      .ok (.number ((toU64 x ||| toU64 y : ℕ) : ℚ))
    ∧ runTop fpow 4 (VM.new [.ldF64 y, .ldF64 x, .band]) =
      .ok (.number ((toU64 x &&& toU64 y : ℕ) : ℚ))
    ∧ runTop fpow 4 (VM.new [.ldF64 y, .ldF64 x, .lshift]) =
      .ok (.number (((toU64 x <<< (toU64 y % 64)) % 2 ^ 64 : ℕ) : ℚ))
    ∧ runTop fpow 4 (VM.new [.ldF64 y, .ldF64 x, .rshift]) =
      .ok (.number ((toU64 x >>> (toU64 y % 64) : ℕ) : ℚ))
    ∧ q5p7 = 57/10
    ∧ q2p3 = 23/10
    ∧ compileF 5 (.binary .bor (.numLit q5p7) (.numLit q2p3)) =
      .ok [.ldF64 q2p3, .ldF64 q5p7, .bor]
    ∧ runTop fpow 4 (VM.new [.ldF64 q2p3, .ldF64 q5p7, .bor]) =
      .ok (.number 7) := by
  refine ⟨rfl, rfl, rfl, rfl, ?_, ?_, rfl, ?_⟩
  · rw [q5p7, Rat.mk'_eq_divInt, Rat.divInt_eq_div]; norm_num
  · rw [q2p3, Rat.mk'_eq_divInt, Rat.divInt_eq_div]; norm_num
  · have hn : (toU64 q5p7 ||| toU64 q2p3 : ℕ) = 7 := by decide
    have h : ((toU64 q5p7 ||| toU64 q2p3 : ℕ) : ℚ) = 7 := by
      rw [hn]; norm_num
    calc runTop fpow 4 (VM.new [.ldF64 q2p3, .ldF64 q5p7, .bor])
        = .ok (.number ((toU64 q5p7 ||| toU64 q2p3 : ℕ) : ℚ)) := rfl
      _ = .ok (.number 7) := by rw [h]

/-! ## Claim C8 -/

/-- Claim C8 counterexample: with a stalled (yet monotone) clock, call 0 and
call 65536 — one full wrap of the 16-bit counter apart — return the same
token, so two distinct calls in one program lifetime can collide. -/
theorem c8_uuid_collision :
    uuidAt (fun _ => 0) 0 = uuidAt (fun _ => 0) 65536
    ∧ (0 : ℕ) ≠ 65536 := by
  exact ⟨rfl, by norm_num⟩

/-- Claim C8, amended: two distinct calls between which the 16-bit counter
does not wrap (same quotient by 2^16) return distinct tokens, for any
monotone clock bounded by `Duration`'s range. -/
theorem c8_uuid_unique_within_epoch (clock : ℕ → ℕ)
    (hmono : ∀ a b, a ≤ b → clock a ≤ clock b)
    (hbound : ∀ t, clock t < 2 ^ 94)
    (i j : ℕ) (hij : i < j) (hepoch : i / 65536 = j / 65536) :
    uuidAt clock i ≠ uuidAt clock j := by
  have hiv := Nat.div_add_mod i 65536
  have hjv := Nat.div_add_mod j 65536
  have hmlt : i % 65536 < j % 65536 := by omega
  have hci : clock i ≤ clock j := hmono i j (Nat.le_of_lt hij)
  have hbi := hbound i
  have hbj := hbound j
  have him : i % 65536 < 65536 := Nat.mod_lt _ (by norm_num)
  have hjm : j % 65536 < 65536 := Nat.mod_lt _ (by norm_num)
  have hpow : (2 : ℕ) ^ 94 + 65536 ≤ 2 ^ 128 := by norm_num
  have h1 : clock i + i % 65536 < 2 ^ 128 := by omega
  have h2 : clock j + j % 65536 < 2 ^ 128 := by omega
  unfold uuidAt
  rw [Nat.mod_eq_of_lt h1, Nat.mod_eq_of_lt h2]
  omega

/-- Witness for the amended C8 theorem at a concrete clock and call pair. -/
theorem c8_uuid_unique_witness :
    uuidAt (fun _ => 5) 0 ≠ uuidAt (fun _ => 5) 1 :=
  c8_uuid_unique_within_epoch (fun _ => 5) (fun _ _ _ => Nat.le_refl 5)
    (fun _ => by norm_num) 0 1 (by norm_num) rfl

/-! ## Claim C4 -/

/-- Claim C4: a `Call` instruction at index `p` writes `Addr(p+1)` into the
reserved top slot of the evaluation stack (index `capacity - 1`), leaves the
operand cursor unchanged, and steps by jumping to the callee's label; `Ret`
reads that same reserved slot and jumps to the absolute address it holds. -/
theorem c4_call_ret_protocol (fpow : ℚ → ℚ → ℚ) (vm : VM) :
    (∀ l, vm.script.get? vm.pc = some (.call l) →
      runNext fpow vm =
        .ok ({vm with stack :=
                ⟨vm.stack.pos,
                 vm.stack.items.set (vm.stack.items.length - 1)
                   (.addr (vm.pc + 1))⟩},
             .jmp l))
    ∧ (∀ a, vm.script.get? vm.pc = some .ret →
        vm.stack.popTop = .addr a →
        runNext fpow vm = .ok (vm, .jmpAddr a)) := by
  constructor
  · intro l hl
    simp only [runNext, hl, Stack.pushTop]
  · intro a hr ha
    simp only [runNext, hr, ha]

/-- `fpow` placeholder used by the concrete witnesses. -/
def fpz : ℚ → ℚ → ℚ := fun _ _ => 0

/-- A two-slot VM state about to execute `Call 5`. -/
def vmCall : VM := ⟨0, ⟨0, [.null, .null]⟩, [.call 5], [], []⟩

/-- A two-slot VM state about to execute `Ret`, reserved slot holding
`Addr 9`. -/
def vmRet : VM := ⟨0, ⟨0, [.null, .addr 9]⟩, [.ret], [], []⟩

/-- Witness for C4 at concrete call and return states. -/
theorem c4_call_ret_witness :
    runNext fpz vmCall =
      .ok (⟨0, ⟨0, [.null, .addr 1]⟩, [.call 5], [], []⟩, .jmp 5)
    ∧ runNext fpz vmRet = .ok (vmRet, .jmpAddr 9) :=
  ⟨(c4_call_ret_protocol fpz vmCall).1 5 rfl,
   (c4_call_ret_protocol fpz vmRet).2 9 rfl rfl⟩

/-! ## Claim C5 -/

/-- Ordering comparisons on a pair of values that are not both `Number`s all
come out `false` (the `PartialOrd` implementation is `None` off the
number/number diagonal). -/
theorem cmpNonNumberFalse (v1 v2 : Value)
    (hv : ¬(v1.isNumber = true ∧ v2.isNumber = true)) :
    valueLt v1 v2 = false ∧ valueGt v1 v2 = false
    ∧ valueLe v1 v2 = false ∧ valueGe v1 v2 = false := by
  cases v1 <;> cases v2 <;>
    simp_all [Value.isNumber, valueLt, valueGt, valueLe, valueGe]

/-- The shape of `run_log_op` on a stack holding at least two operands. -/
theorem logSemShape (f : Value → Value → Bool) (p : ℕ) (items : List Value)
    (hlen : p + 2 ≤ items.length) :
    logSem f ⟨p + 2, items⟩ =
      .ok (⟨p + 1,
            ((items.set (p + 1) .null).set p .null).set p
              (.bool (f (items.getD (p + 1) .null) (items.getD p .null)))⟩,
           .next) := by
  have h2 : ((items.set (p + 1) Value.null).getD p .null) =
      items.getD p .null := listGetDSetNe _ _ _ _ _ (by omega)
  have hpush : ¬(((items.set (p + 1) Value.null).set p Value.null).length - 1
      ≤ p) := by
    simp only [List.length_set]; omega
  have hpop1 : Stack.pop ⟨p + 2, items⟩ =
      .ok (items.getD (p + 1) .null, ⟨p + 1, items.set (p + 1) .null⟩) := rfl
  have hpop2 : Stack.pop ⟨p + 1, items.set (p + 1) .null⟩ =
      .ok ((items.set (p + 1) .null).getD p .null,
           ⟨p, (items.set (p + 1) .null).set p .null⟩) := rfl
  have hpush3 : ∀ w : Value,
      Stack.push ⟨p, (items.set (p + 1) .null).set p .null⟩ w =
        .ok ⟨p + 1, ((items.set (p + 1) .null).set p .null).set p w⟩ := by
    intro w
    rw [Stack.push, if_neg hpush]
  simp only [logSem, hpop1, hpop2, h2, hpush3]

/-- Claim C5: executing any of `Lt`, `Gt`, `LtEq`, `GtEq` when the two popped
values are not both `Number`s deterministically pushes `Bool false` and does
not fault. -/
theorem c5_comparison_non_numbers (fpow : ℚ → ℚ → ℚ) (vm : VM) (p : ℕ)
    (ins : Instr)
    (hpos : vm.stack.pos = p + 2)
    (hlen : p + 2 ≤ vm.stack.items.length)
    (hv : ¬((vm.stack.items.getD (p + 1) .null).isNumber = true
            ∧ (vm.stack.items.getD p .null).isNumber = true))
    (hins : vm.script.get? vm.pc = some ins)
    (hi : ins = .lt ∨ ins = .gt ∨ ins = .ltEq ∨ ins = .gtEq) :
    ∃ vm2, runNext fpow vm = .ok (vm2, .next)
      ∧ vm2.stack.pos = p + 1
      ∧ vm2.stack.items.getD p .null = .bool false := by
  obtain ⟨pc, ⟨spos, sitems⟩, script, locals, builtins⟩ := vm
  simp only at hpos hlen hv hins
  subst hpos
  have hkey := cmpNonNumberFalse _ _ hv
  have hset : ∀ w : Value,
      (((sitems.set (p + 1) Value.null).set p Value.null).set p w).getD p
        .null = w := by
    intro w
    exact listGetDSetSelf _ _ _ _ (by simp only [List.length_set]; omega)
  refine ⟨⟨pc, ⟨p + 1,
      ((sitems.set (p + 1) .null).set p .null).set p (.bool false)⟩,
      script, locals, builtins⟩, ?_, rfl, hset _⟩
  rcases hi with h | h | h | h <;> subst h
  · simp only [runNext, hins, withStack, logSemShape valueLt p sitems hlen,
      hkey.1]
  · simp only [runNext, hins, withStack, logSemShape valueGt p sitems hlen,
      hkey.2.1]
  · simp only [runNext, hins, withStack, logSemShape valueLe p sitems hlen,
      hkey.2.2.1]
  · simp only [runNext, hins, withStack, logSemShape valueGe p sitems hlen,
      hkey.2.2.2]

/-- A VM state about to compare a `Bool` against a `Null` with `Lt`. -/
def vmCmp : VM := ⟨0, ⟨2, [.null, .bool true, .null]⟩, [.lt], [], []⟩

/-- Witness for C5 at a concrete non-number comparison. -/
theorem c5_comparison_witness :
    ∃ vm2, runNext fpz vmCmp = .ok (vm2, .next)
      ∧ vm2.stack.pos = 1
      ∧ vm2.stack.items.getD 0 .null = .bool false :=
  c5_comparison_non_numbers fpz vmCmp 0 .lt rfl (by decide) (by decide)
    rfl (Or.inl rfl)

/-! ## Claim C9 -/

/-- Claim C9: an operand push succeeds exactly while the cursor is strictly
below `capacity - 1`; it writes only at the cursor and leaves the reserved
slot at index `capacity - 1` untouched, faulting once the cursor reaches
`capacity - 1`; `Stack::new n` allocates `n` slots, so the usable operand
capacity is `n - 1`; only `push_top` (the call stash) writes the reserved
slot. -/
theorem c9_stack_reserved_top (st : Stack) (v : Value) (n : ℕ) :
    (st.items.length - 1 ≤ st.pos → st.push v = .error .stackOverflow)
    ∧ (st.pos < st.items.length - 1 →
        st.push v = .ok ⟨st.pos + 1, st.items.set st.pos v⟩
        ∧ (st.items.set st.pos v).getD (st.items.length - 1) .null =
            st.items.getD (st.items.length - 1) .null)
    ∧ (Stack.new n).items.length = n
    ∧ (0 < st.items.length →
        (st.pushTop v).items.getD (st.items.length - 1) .null = v) := by
  refine ⟨?_, ?_, by simp [Stack.new], ?_⟩
  · intro hge
    simp [Stack.push, hge]
  · intro hlt
    refine ⟨?_, listGetDSetNe _ _ _ _ _ (by omega)⟩
    rw [Stack.push, if_neg (by omega)]
  · intro hpos
    exact listGetDSetSelf _ _ _ _ (by omega)

/-- Witness for C9: a 2-slot stack faults with the cursor at `capacity - 1`
and pushes normally below it. -/
theorem c9_stack_witness :
    Stack.push ⟨1, [.null, .null]⟩ (.bool true) = .error .stackOverflow
    ∧ Stack.push ⟨0, [.null, .null]⟩ (.bool true) =
        .ok ⟨1, [.bool true, .null]⟩ :=
  ⟨(c9_stack_reserved_top ⟨1, [.null, .null]⟩ (.bool true) 0).1 (by norm_num),
   ((c9_stack_reserved_top ⟨0, [.null, .null]⟩ (.bool true) 0).2.1
      (by norm_num)).1⟩

/-! ## Claim C10 -/

/-- `(fun f (a) 1) (f)`: a function whose entry sequence defines the
parameter local and immediately loads it, then a call to it. -/
def exC10 : Expr := .compound [.funE "f" ["a"] (.numLit 1), .callE "f" none]

/-- The instruction sequence `exC10` lowers to: note `LdLoc 2` right after
the function label, with no store of any argument before it. -/
def progC10 : List Instr :=
  [.jmp 1, .label 0, .ldLoc 2, .ldF64 1, .ret, .label 1, .call 0]

/-- Claim C10: a `LdLoc` whose local was never stored is a fatal runtime
fault (no `Null` default); in particular the compiled parameter-binding
sequence of `exC10` faults at `LdLoc` when the function is called. -/
theorem c10_ldloc_unbound_faults (fpow : ℚ → ℚ → ℚ) (vm : VM) (l : ℕ) :
    (vm.script.get? vm.pc = some (.ldLoc l) →
      lookupLocal vm.locals l = none →
      runNext fpow vm = .error (.undefinedLocal l))
    ∧ compileF 10 exC10 = .ok progC10
    ∧ run fpow 10 (VM.new progC10) = .error (.undefinedLocal 2) := by
  refine ⟨?_, rfl, rfl⟩
  intro h1 h2
  simp only [runNext, h1, h2]

/-- The state of the `exC10` program right after the call has jumped to the
function label. -/
def vmLd : VM := ⟨2, Stack.new 255, progC10, [], []⟩

/-- Witness for C10 at the concrete function-entry load. -/
theorem c10_ldloc_witness : runNext fpz vmLd = .error (.undefinedLocal 2) :=
  (c10_ldloc_unbound_faults fpz vmLd 2).1 rfl rfl

/-! ## Claim C7 -/

/-- The direct comparison-jump emitted for a shortcut condition. -/
def cmpJmp : BinOp → ℕ → Instr
  | .lt, n => .jmpLt n
  | _, n => .jmpEq n

/-- The instructions that materialize a boolean comparison value. -/
def isBoolCmp : Instr → Bool
  | .eq => true
  | .neq => true
  | .lt => true
  | .gt => true
  | .ltEq => true
  | .gtEq => true
  | _ => false

/-- Claim C7: for an `if` whose condition is syntactically a direct `Eq` or
`Lt` binary comparison, the condition phase of `visit_if` lowers the right
operand, then the left operand, then one direct comparison-jump to the body
label; the added jump is not `LdTrue` and is not a boolean-materializing
comparison instruction, so the emitted condition sequence contains no
load-true instruction beyond whatever the operands themselves lower to. -/
theorem c7_comparison_shortcut (fuel : ℕ) (h : Hir) (cop : BinOp)
    (l r : Expr) (bodyL : ℕ) (hr hl : Hir) (tr tl : List Instr)
    (hcop : cop = .eq ∨ cop = .lt)
    (hvr : hirVisitF fuel h r = .ok hr)
    (htr : hr.instructions = h.instructions ++ tr)
    (hvl : hirVisitF fuel hr l = .ok hl)
    (htl : hl.instructions = hr.instructions ++ tl) :
    condPhase (hirVisitF fuel) h bodyL (.binary cop l r) =
      .ok (hl.push (cmpJmp cop bodyL))
    ∧ (hl.push (cmpJmp cop bodyL)).instructions =
        h.instructions ++ (tr ++ (tl ++ [cmpJmp cop bodyL]))
    ∧ cmpJmp cop bodyL ≠ .ldTrue
    ∧ isBoolCmp (cmpJmp cop bodyL) = false
    ∧ (Instr.ldTrue ∉ tr ++ tl →
        Instr.ldTrue ∉ tr ++ (tl ++ [cmpJmp cop bodyL])) := by
  rcases hcop with hc | hc <;> subst hc <;>
    refine ⟨by simp [condPhase, hvr, hvl, cmpJmp],
            by simp [Hir.push, htr, htl, cmpJmp],
            by simp [cmpJmp],
            by simp [cmpJmp, isBoolCmp],
            by
              intro hmem hbad
              simp only [List.mem_append, List.mem_singleton] at hmem hbad
              rcases hbad with hb | hb | hb
              · exact hmem (Or.inl hb)
              · exact hmem (Or.inr hb)
              · simp [cmpJmp] at hb⟩

/-- A small compiler state for the C7 witness. -/
def hSmall : Hir := ⟨0, [Scope.new], [], [], 0⟩

/-- Witness for C7: the shortcut phase on `(equal 1 2)` emits exactly
right operand, left operand, equality-jump. -/
theorem c7_comparison_witness :
    condPhase (hirVisitF 1) hSmall 7 (.binary .eq (.numLit 1) (.numLit 2)) =
      .ok ⟨0, [Scope.new], [], [.ldF64 2, .ldF64 1, .jmpEq 7], 0⟩ :=
  (c7_comparison_shortcut 1 hSmall .eq (.numLit 1) (.numLit 2) 7
    ⟨0, [Scope.new], [], [.ldF64 2], 0⟩
    ⟨0, [Scope.new], [], [.ldF64 2, .ldF64 1], 0⟩
    [.ldF64 2] [.ldF64 1] (Or.inl rfl) rfl rfl rfl rfl).1

end Chal
